import Mathlib

/-!
# Verification of the ftldat2 archive codec

A shallow embedding of `src/ftldat2/__init__.py` (the FTL `.dat`
pack/unpack tool).  Byte streams are modelled as `List Nat` (each element
a byte value), Python `struct.pack('<L', ·)` / `struct.unpack('<L', ·)`
as little-endian 4-byte conversions that fail outside `[0, 2^32)`
(Python raises `struct.error`), Python `bytes.decode()` /
`str.encode()` as a strict UTF-8 codec, and Python file objects by
positional slicing: `f.seek(p); f.read(k)` returns the bytes
`[p, p+k)` clipped to the end of the stream (a short read at EOF is not
an error in Python).
-/

namespace FtlDat

/-- UTF-8 encoding of a single character (value in `[0, 0x110000)`,
surrogates excluded by `Char`'s validity invariant), as Python's
`str.encode()` produces per character. -/
def utf8EncodeChar (c : Char) : List Nat :=
  let n := c.toNat
  if n < 0x80 then [n]
  else if n < 0x800 then [0xC0 + n / 64, 0x80 + n % 64]
  else if n < 0x10000 then
    [0xE0 + n / 4096, 0x80 + n / 64 % 64, 0x80 + n % 64]
  else
    [0xF0 + n / 262144, 0x80 + n / 4096 % 64, 0x80 + n / 64 % 64,
     0x80 + n % 64]

/-- UTF-8 encoding of a character list. -/
def encodeChars : List Char → List Nat
  | [] => []
  | c :: cs => utf8EncodeChar c ++ encodeChars cs

/-- Python `s.encode()`: the UTF-8 bytes of a string. -/
def encodeStr (s : String) : List Nat :=
  encodeChars s.data

/-- Whether `b` is a UTF-8 continuation byte with value in `[lo, hi)`. -/
def contOK (lo hi b : Nat) : Bool :=
  lo ≤ b && b < hi

/-- Strict UTF-8 decoding, as Python `bytes.decode()` (errors='strict'):
rejects invalid lead bytes, truncated sequences, bad continuation bytes,
overlong encodings, surrogates and values above `0x10FFFF`. -/
def utf8Decode : List Nat → Option (List Char)
  | [] => some []
  | b :: rest =>
    if b < 0x80 then
      match utf8Decode rest with
      | some cs => some (Char.ofNat b :: cs)
      | none => none
    else if b < 0xC2 then
      none
    else if b < 0xE0 then
      match rest with
      | b1 :: rest2 =>
        if contOK 0x80 0xC0 b1 then
          match utf8Decode rest2 with
          | some cs => some (Char.ofNat ((b - 0xC0) * 64 + (b1 - 0x80)) :: cs)
          | none => none
        else none
      | [] => none
    else if b < 0xF0 then
      match rest with
      | b1 :: b2 :: rest3 =>
        let lo1 := if b = 0xE0 then 0xA0 else 0x80
        let hi1 := if b = 0xED then 0xA0 else 0xC0
        if contOK lo1 hi1 b1 && contOK 0x80 0xC0 b2 then
          match utf8Decode rest3 with
          | some cs =>
            some (Char.ofNat
              ((b - 0xE0) * 4096 + (b1 - 0x80) * 64 + (b2 - 0x80)) :: cs)
          | none => none
        else none
      | _ => none
    else if b < 0xF5 then
      match rest with
      | b1 :: b2 :: b3 :: rest4 =>
        let lo1 := if b = 0xF0 then 0x90 else 0x80
        let hi1 := if b = 0xF4 then 0x90 else 0xC0
        if contOK lo1 hi1 b1 && contOK 0x80 0xC0 b2 && contOK 0x80 0xC0 b3 then
          match utf8Decode rest4 with
          | some cs =>
            some (Char.ofNat
              ((b - 0xF0) * 262144 + (b1 - 0x80) * 4096 +
               (b2 - 0x80) * 64 + (b3 - 0x80)) :: cs)
          | none => none
        else none
      | _ => none
    else none

/-- `struct.pack('<L', n)`: four little-endian bytes, or `none` when the
value does not fit an unsigned 32-bit field (Python raises
`struct.error`). -/
def packU32 (n : Nat) : Option (List Nat) :=
  if n < 4294967296 then
    some [n % 256, n / 256 % 256, n / 65536 % 256, n / 16777216 % 256]
  else none

/-- `f.seek(pos); f.read(k)` on a stream: the bytes `[pos, pos+k)`,
clipped to the end of the stream (Python returns a short result at EOF
rather than failing). -/
def readBytes (bs : List Nat) (pos k : Nat) : List Nat :=
  (bs.drop pos).take k

/-- `struct.unpack('<L', f.read(4))` at position `pos`: `none` when
fewer than four bytes remain (Python's `struct.unpack` raises
`struct.error` on a short buffer). -/
def readU32At (bs : List Nat) (pos : Nat) : Option Nat :=
  match readBytes bs pos 4 with
  | [b0, b1, b2, b3] => some (b0 + 256 * b1 + 65536 * b2 + 16777216 * b3)
  | _ => none

/-- `FileEntry`: one (path, contents) pair of the archive.  `path` is a
Python `str`; `contents` the raw bytes. -/
structure FileEntry where
  path : String
  contents : List Nat
deriving DecidableEq, Repr

/-- `FileEntry.size`: `8 + len(self.path) + len(self.contents)`.
`len` of a Python `str` is its number of characters
(`String.length`), not its UTF-8 byte count. -/
def FileEntry.size (e : FileEntry) : Nat :=
  8 + e.path.length + e.contents.length

/-- `FTLPack`: the mutable object's two fields, `self.index` (the entry
list) and `self.index_size` (the declared index capacity). -/
structure FTLPack where
  index : List FileEntry
  index_size : Nat
deriving DecidableEq, Repr

/-- Errors raised by `FTLPack.save`: the explicit `FTLPackError` guard,
and `struct.error` from packing a value outside the 4-byte range. -/
inductive SaveErr where
  | indexTooSmall (entries capacity : Nat)
  | formatOverflow
deriving DecidableEq, Repr

/-- Errors raised by `FTLPack.load`: `struct.error` from a short read of
a fixed-size field, and `UnicodeDecodeError` from `bytes.decode()`. -/
inductive LoadErr where
  | truncated
  | invalidPath
deriving DecidableEq, Repr

/-- The index-slot loop of `save`: for each entry write the current
`offset` as a LE uint32, then advance `offset` by `entry.size`.  The
offset after the last entry is never packed, as in the source. -/
def packSlots : Nat → List FileEntry → Option (List Nat)
  | _, [] => some []
  | off, e :: es =>
    match packU32 off with
    | some b =>
      match packSlots (off + e.size) es with
      | some rest => some (b ++ rest)
      | none => none
    | none => none

/-- One record of the data region:
`struct.pack('<LL', len(entry.contents), len(entry.path))` followed by
`entry.path.encode()` and `entry.contents`.  Note the length field holds
`len(entry.path)` — the character count — while the bytes written are
the UTF-8 encoding. -/
def packRecord (e : FileEntry) : Option (List Nat) :=
  match packU32 e.contents.length with
  | some c =>
    match packU32 e.path.length with
    | some p => some (c ++ p ++ encodeStr e.path ++ e.contents)
    | none => none
  | none => none

/-- The record loop of `save`, in entry order. -/
def packRecords : List FileEntry → Option (List Nat)
  | [] => some []
  | e :: es =>
    match packRecord e with
    | some r =>
      match packRecords es with
      | some rest => some (r ++ rest)
      | none => none
    | none => none

/-- `FTLPack.save`: check the capacity guard before opening the file
(so a failure writes nothing), then write the header, the index slots,
`4 * (index_size - len(index))` zero bytes, and the records. -/
def FTLPack.save (a : FTLPack) : Except SaveErr (List Nat) :=
  if a.index.length > a.index_size then
    .error (.indexTooSmall a.index.length a.index_size)
  else
    match packU32 a.index_size, packSlots (4 + 4 * a.index_size) a.index,
          packRecords a.index with
    | some h, some s, some r =>
      .ok (h ++ s ++ List.replicate (4 * (a.index_size - a.index.length)) 0
             ++ r)
    | _, _, _ => .error .formatOverflow

/-- Reading one record at `offset`: `struct.unpack('<LL', f.read(8))`
giving `size` (content length) and `path_len`, then
`f.read(path_len).decode()` and `f.read(size)`.  The two byte-array
reads are clipped at EOF without error; only a short fixed-field read
fails. -/
def readEntry (bs : List Nat) (offset : Nat) : Except LoadErr FileEntry :=
  match readU32At bs offset, readU32At bs (offset + 4) with
  | some size, some path_len =>
    let pathBytes := readBytes bs (offset + 8) path_len
    match utf8Decode pathBytes with
    | some cs =>
      .ok ⟨String.mk cs, readBytes bs (offset + 8 + pathBytes.length) size⟩
    | none => .error .invalidPath
  | _, _ => .error .truncated

/-- The slot-scan loop of `load`: read the 4-byte offset at `pos`, skip
it when zero, otherwise parse the record it points to; `k` slots
remain. -/
def loadSlots (bs : List Nat) : Nat → Nat → Except LoadErr (List FileEntry)
  | _, 0 => .ok []
  | pos, k + 1 =>
    match readU32At bs pos with
    | none => .error .truncated
    | some offset =>
      if offset > 0 then
        match readEntry bs offset with
        | .ok e =>
          match loadSlots bs (pos + 4) k with
          | .ok es => .ok (e :: es)
          | .error er => .error er
        | .error er => .error er
      else loadSlots bs (pos + 4) k

/-- `FTLPack.load` viewed as a pure function of the byte stream: read
the 4-byte `index_size`, scan its slots, return the populated pack. -/
def load (bs : List Nat) : Except LoadErr FTLPack :=
  match readU32At bs 0 with
  | none => .error .truncated
  | some n =>
    match loadSlots bs 4 n with
    | .ok es => .ok ⟨es, n⟩
    | .error e => .error e

/-- `FTLPack.load` as the source writes it: a method on a pre-existing
object.  It first does `self.index = []`, then overwrites
`self.index_size` with the value read from the stream, then appends the
parsed entries. -/
def FTLPack.loadFrom (p : FTLPack) (bs : List Nat) :
    Except LoadErr FTLPack :=
  let p1 : FTLPack := { p with index := [] }
  match readU32At bs 0 with
  | none => .error .truncated
  | some n =>
    let p2 : FTLPack := { p1 with index_size := n }
    match loadSlots bs 4 n with
    | .ok es => .ok { p2 with index := es }
    | .error e => .error e

/-- `FTLPack.construct` with the filesystem walk abstracted: `files` is
the list of (relative path, contents) pairs the recursive walk yields,
already clipped of the root prefix and separator-normalised.  The body
builds one `FileEntry` per file and sets
`index_size = max(len(self.index), min_index)`. -/
def construct (files : List (String × List Nat)) (min_index : Nat) :
    FTLPack :=
  let idx := files.map fun f => FileEntry.mk f.1 f.2
  ⟨idx, max idx.length min_index⟩

/-- A path of `2^31` copies of `'é'` (code point 233): its Python
`len` is `2^31` but its UTF-8 encoding is `2^32` bytes long. -/
def pathBig : String := String.mk (List.replicate 2147483648 (Char.ofNat 233))

/-- An entry whose path's UTF-8 byte length does not fit in 32 bits
while its character count does. -/
def entryBig : FileEntry := ⟨pathBig, []⟩

end FtlDat

deriving instance DecidableEq for Except

namespace FtlDat

/-- Reading a 4-byte field fails when fewer than four bytes remain. -/
theorem readU32At_none {bs : List Nat} {pos : Nat} (h : bs.length < pos + 4) :
    readU32At bs pos = none := by
  have hlen : ((bs.drop pos).take 4).length < 4 := by
    simp only [List.length_take, List.length_drop]
    omega
  unfold readU32At readBytes
  rcases hl : (bs.drop pos).take 4 with _ | ⟨a, _ | ⟨b, _ | ⟨c, _ | ⟨d, t⟩⟩⟩⟩
  · rfl
  · rfl
  · rfl
  · rfl
  · rw [hl] at hlen
    simp only [List.length_cons] at hlen
    exact absurd hlen (by omega)

/-- Unfolding lemma for one iteration of the slot-scan loop. -/
theorem loadSlots_succ (bs : List Nat) (pos k : Nat) :
    loadSlots bs pos (k + 1) =
      match readU32At bs pos with
      | none => .error .truncated
      | some offset =>
        if offset > 0 then
          match readEntry bs offset with
          | .ok e =>
            match loadSlots bs (pos + 4) k with
            | .ok es => .ok (e :: es)
            | .error er => .error er
          | .error er => .error er
        else loadSlots bs (pos + 4) k := rfl

/-- Length of the UTF-8 encoding of a repeated character. -/
theorem encodeChars_replicate (n : Nat) (c : Char) :
    (encodeChars (List.replicate n c)).length =
      n * (utf8EncodeChar c).length := by
  induction n with
  | zero => simp [List.replicate, encodeChars]
  | succ m ih =>
    simp only [List.replicate_succ, encodeChars, List.length_append, ih]
    ring

/-- The big path has `2^31` characters. -/
theorem pathBig_length : pathBig.length = 2147483648 := by
  show (List.replicate 2147483648 (Char.ofNat 233)).length = 2147483648
  exact List.length_replicate _ _

/-- The big path's character count, seen through the entry. -/
theorem entryBig_path_len : entryBig.path.length = 2147483648 := pathBig_length

/-- The big path's UTF-8 encoding is `2^32` bytes long. -/
theorem encodeStr_entryBig : (encodeStr entryBig.path).length = 4294967296 := by
  show (encodeChars (List.replicate 2147483648 (Char.ofNat 233))).length = _
  rw [encodeChars_replicate]
  rfl

/-- The slot loop on a one-entry list writes one packed offset. -/
theorem packSlots_one (off : Nat) (e : FileEntry) (b : List Nat)
    (h : packU32 off = some b) : packSlots off [e] = some (b ++ []) := by
  simp only [packSlots, h]

/-- A record packs successfully when both length fields pack. -/
theorem packRecord_eq (e : FileEntry) (c p : List Nat)
    (hc : packU32 e.contents.length = some c)
    (hp : packU32 e.path.length = some p) :
    packRecord e = some (c ++ p ++ encodeStr e.path ++ e.contents) := by
  simp only [packRecord, hc, hp]

/-- The record loop on a one-entry list writes one record. -/
theorem packRecords_one (e : FileEntry) (r : List Nat)
    (h : packRecord e = some r) : packRecords [e] = some (r ++ []) := by
  simp only [packRecords, h]

/-- `save` succeeds and produces the concatenated layout when the guard
passes and every pack step succeeds. -/
theorem save_ok_eq (idx : List FileEntry) (n : Nat) (hn : ¬ idx.length > n)
    (h s r : List Nat) (hh : packU32 n = some h)
    (hs : packSlots (4 + 4 * n) idx = some s) (hr : packRecords idx = some r) :
    FTLPack.save ⟨idx, n⟩ =
      .ok (h ++ s ++ List.replicate (4 * (n - idx.length)) 0 ++ r) := by
  unfold FTLPack.save
  rw [if_neg hn]
  rw [hh, hs, hr]

/-- `save` on the one-entry archive holding the big path succeeds,
writing `2^31` (the character count) in the pathLength field. -/
theorem saveBig : FTLPack.save ⟨[entryBig], 1⟩ =
    .ok ([1, 0, 0, 0] ++ ([8, 0, 0, 0] ++ []) ++
      List.replicate (4 * (1 - [entryBig].length)) 0 ++
      (([0, 0, 0, 0] ++ [0, 0, 0, 128] ++ encodeStr entryBig.path ++
        entryBig.contents) ++ [])) := by
  have hp : packU32 entryBig.path.length = some [0, 0, 0, 128] := by
    rw [entryBig_path_len]
    decide
  have hc : packU32 entryBig.contents.length = some [0, 0, 0, 0] := by decide
  exact save_ok_eq [entryBig] 1 (by decide) _ _ _ (by decide)
    (packSlots_one _ entryBig _ (by decide))
    (packRecords_one entryBig _ (packRecord_eq entryBig _ _ hc hp))

/-- C1: the load/save round trip fails on the archive with the single
entry `("é", b"")` and capacity 1: `save` succeeds (writing character
count 1 in the pathLength field but two UTF-8 path bytes), and `load`
of the produced stream fails with a UTF-8 decode error instead of
returning the same entries. -/
theorem c1_round_trip_fails_on_accent :
    FTLPack.save ⟨[⟨String.mk [Char.ofNat 233], []⟩], 1⟩ =
      .ok [1, 0, 0, 0, 8, 0, 0, 0, 0, 0, 0, 0, 1, 0, 0, 0, 195, 169] ∧
    load [1, 0, 0, 0, 8, 0, 0, 0, 0, 0, 0, 0, 1, 0, 0, 0, 195, 169] =
      .error .invalidPath :=
  ⟨by decide, by decide⟩

/-- C2: `FileEntry.size` uses the path's character count, not its UTF-8
byte count: for the entry `("é", b"")` the code computes 9, while
`8 + byteLength(path) + byteLength(contents)` is 10. -/
theorem c2_size_uses_char_count :
    FileEntry.size ⟨String.mk [Char.ofNat 233], []⟩ = 9 ∧
    8 + (encodeStr (String.mk [Char.ofNat 233])).length +
      ([] : List Nat).length = 10 :=
  ⟨by decide, by decide⟩

/-- C3: the pathLength field `save` writes is the character count, not
the UTF-8 byte count: for the entry `("é", b"")` the field (at record
offset + 4, i.e. stream offset 12) holds 1 while two path bytes follow,
so the record is not well-formed per the record layout. -/
theorem c3_path_length_field_mismatch :
    FTLPack.save ⟨[⟨String.mk [Char.ofNat 233], []⟩], 1⟩ =
      .ok [1, 0, 0, 0, 8, 0, 0, 0, 0, 0, 0, 0, 1, 0, 0, 0, 195, 169] ∧
    readU32At [1, 0, 0, 0, 8, 0, 0, 0, 0, 0, 0, 0, 1, 0, 0, 0, 195, 169] 12 =
      some 1 ∧
    (encodeStr (String.mk [Char.ofNat 233])).length = 2 :=
  ⟨by decide, by decide, by decide⟩

/-- C4: `save` on an archive with more entries than index capacity
fails with the IndexTooSmall error, carrying the entry count and the
capacity, and produces no bytes (the guard precedes every write). -/
theorem c4_save_index_too_small (a : FTLPack)
    (h : a.index.length > a.index_size) :
    a.save = .error (.indexTooSmall a.index.length a.index_size) := by
  simp [FTLPack.save, h]

/-- Witness for C4 at a concrete archive: one entry, capacity 0. -/
theorem c4_save_index_too_small_witness :
    FTLPack.save ⟨[⟨String.mk [], []⟩], 0⟩ = .error (.indexTooSmall 1 0) :=
  c4_save_index_too_small ⟨[⟨String.mk [], []⟩], 0⟩ (by decide)

/-- C5 (amended): `load` fails with TruncatedInput when a fixed-size
4-byte field read comes up short — in particular on any stream shorter
than 4 bytes, and on any stream shorter than 8 bytes whose header
announces at least one slot — but a `pathLength` or `contentLength`
larger than the remaining stream bytes is not detected: the available
bytes are read short without error and an entry is still produced
(here `contentLength = 5` with no bytes left yields the entry
`("", b"")`).  A cut-off index table need not give TruncatedInput
either: the 11-byte stream announcing two slots (a 12-byte table)
whose first slot points at offset 1 fails with InvalidPath, because
the short-read path bytes `FF FF` are invalid UTF-8. -/
theorem c5_truncation_amended :
    (∀ bs : List Nat, bs.length < 4 → load bs = .error .truncated) ∧
    (∀ (bs : List Nat) (n : Nat), readU32At bs 0 = some n → 0 < n →
      bs.length < 8 → load bs = .error .truncated) ∧
    load [1, 0, 0, 0, 8, 0, 0, 0, 5, 0, 0, 0, 0, 0, 0, 0] =
      .ok ⟨[⟨String.mk [], []⟩], 1⟩ ∧
    load [2, 0, 0, 0, 1, 0, 0, 0, 255, 255, 255] = .error .invalidPath := by
  refine ⟨?_, ?_, by decide, by decide⟩
  · intro bs h
    unfold load
    rw [readU32At_none (by omega)]
  · intro bs n hn hpos hlen
    cases n with
    | zero => omega
    | succ m =>
      have h4 : readU32At bs 4 = none := readU32At_none (by omega)
      simp only [load, hn, loadSlots_succ, h4]

/-- Witness for C5's amended statement at concrete streams: the empty
stream and a 4-byte stream announcing one slot both fail truncated. -/
theorem c5_truncation_amended_witness :
    load ([] : List Nat) = .error .truncated ∧
    load [1, 0, 0, 0] = .error .truncated :=
  ⟨c5_truncation_amended.1 [] (by decide),
   c5_truncation_amended.2.1 [1, 0, 0, 0] 1 (by decide) (by decide)
     (by decide)⟩

/-- C5 counterexample: a stream whose record announces `pathLength = 5`
with zero bytes remaining.  The claim says load fails with
TruncatedInput; the code returns an archive with the entry
`("", b"")`. -/
theorem c5_counterexample :
    load [1, 0, 0, 0, 8, 0, 0, 0, 0, 0, 0, 0, 5, 0, 0, 0] =
      .ok ⟨[⟨String.mk [], []⟩], 1⟩ := by decide

/-- C6: the sentinel claim fails on the archive `[("é", b"")]` with
capacity 2: `save` does write exactly one zero-valued slot after the
entry slot, but `load` of the output fails with a UTF-8 decode error
instead of producing exactly one entry. -/
theorem c6_sentinel_fails_on_accent :
    FTLPack.save ⟨[⟨String.mk [Char.ofNat 233], []⟩], 2⟩ =
      .ok [2, 0, 0, 0, 12, 0, 0, 0, 0, 0, 0, 0, 0, 0, 0, 0, 1, 0, 0, 0,
        195, 169] ∧
    load [2, 0, 0, 0, 12, 0, 0, 0, 0, 0, 0, 0, 0, 0, 0, 0, 1, 0, 0, 0,
      195, 169] = .error .invalidPath :=
  ⟨by decide, by decide⟩

/-- C7: the concrete scenario: entries `[("a.txt", b"hi"),
("b/c.txt", b"bye")]` with capacity 2 serialize to exactly the expected
bytes (header 02, slots 12 and 27, then the two records), and `load` of
that stream reproduces the archive. -/
theorem c7_concrete_scenario :
    FTLPack.save ⟨[⟨"a.txt", [104, 105]⟩, ⟨"b/c.txt", [98, 121, 101]⟩], 2⟩ =
      .ok [2, 0, 0, 0, 12, 0, 0, 0, 27, 0, 0, 0, 2, 0, 0, 0, 5, 0, 0, 0,
        97, 46, 116, 120, 116, 104, 105, 3, 0, 0, 0, 7, 0, 0, 0,
        98, 47, 99, 46, 116, 120, 116, 98, 121, 101] ∧
    load [2, 0, 0, 0, 12, 0, 0, 0, 27, 0, 0, 0, 2, 0, 0, 0, 5, 0, 0, 0,
        97, 46, 116, 120, 116, 104, 105, 3, 0, 0, 0, 7, 0, 0, 0,
        98, 47, 99, 46, 116, 120, 116, 98, 121, 101] =
      .ok ⟨[⟨"a.txt", [104, 105]⟩, ⟨"b/c.txt", [98, 121, 101]⟩], 2⟩ :=
  ⟨by decide, by decide⟩

/-- C8: an archive within its capacity holding one entry whose path has
`2^31` characters of two UTF-8 bytes each (byte length `2^32`, outside
the 4-byte field range) is saved successfully — no FormatOverflow is
raised, because `save` range-checks the character count, not the byte
count. -/
theorem c8_overflow_undetected :
    4294967296 ≤ (encodeStr entryBig.path).length ∧
    [entryBig].length ≤ 1 ∧
    ∃ bs, FTLPack.save ⟨[entryBig], 1⟩ = .ok bs :=
  ⟨by rw [encodeStr_entryBig], by decide, ⟨_, saveBig⟩⟩

/-- C9: the archive `construct` builds has index capacity equal to the
maximum of the number of entries and `min_index`. -/
theorem c9_construct_capacity (files : List (String × List Nat)) (m : Nat) :
    (construct files m).index_size =
      max (construct files m).index.length m := rfl

/-- C10: the result of `load` does not depend on the prior state of the
`FTLPack` object: loading the same stream into any two packs gives
identical results, because `load` discards the previous entries and
overwrites the capacity before reading. -/
theorem c10_load_state_independent (p q : FTLPack) (bs : List Nat) :
    p.loadFrom bs = q.loadFrom bs := by
  cases p
  cases q
  rfl

end FtlDat
